import Mathlib

/-!
Verification of the order-lifecycle / kitchen-scheduler core of the
POO-TP1 restaurant codebase (in-memory variant under `src/Classes/`,
the primary implementation the specification's operation signatures
follow: `Caixa.process_payment(client)`, `Cozinha.start_next_order()`,
etc.).

Modelling conventions:
* Money is embedded as `Rat` (the Python code uses floats but every
  property at issue is exact comparison/addition/subtraction).
* A Python method that can `raise` is embedded as a function returning
  the post-call state paired with an `Except PyErr` outcome.  Python
  exceptions do not roll back mutations already performed, so the
  returned state reflects any partial mutation made before the raise.
* Object identity (`EntidadeBase` sets `self._id = id(self)`) is
  embedded as an explicit `Nat` identifier; distinct objects carry
  distinct identifiers, and the kitchen-level semantics keeps order
  objects in a store keyed by identifier so that the same order
  appearing twice in the queue aliases one store entry, exactly as two
  Python references alias one object.
* `StatusPedido` in `src/Classes/StatusPedido.py` derives from plain
  `enum.Enum` (not `IntEnum`).  Python rejects ordered comparison of
  plain-Enum members, so the guard `new_status < self._status` in
  `Pedido.change_status` raises `TypeError` before the condition can be
  evaluated, on every call.  The embedding keeps the source's structure
  by routing the comparison through a fallible `enumLt`.
-/

deriving instance DecidableEq for Except

namespace POOTP1

/-- Embeds the error conditions the core can raise.  The Python code
raises `ValueError` with distinct messages (plus the `TypeError` coming
from the unorderable enum comparison); the specification's error
taxonomy names them, and this type keeps one constructor per distinct
raise site condition. -/
inductive PyErr where
  /-- TypeError from ordered comparison of plain enum.Enum members. -/
  | typeErrorUnorderable
  /-- InvalidTransitionError: backward status change that is not a cancellation. -/
  | invalidTransition
  /-- TerminalStateError: advance attempted from CANCELED. -/
  | terminalCanceled
  /-- TerminalStateError: advance attempted from DELIVERED. -/
  | terminalDelivered
  /-- Defensive raise when no next enum value exists. -/
  | noNextStatus
  /-- CapacityExceededError: kitchen at full in-progress capacity. -/
  | capacityExceeded
  /-- EmptyQueueError: no order queued. -/
  | emptyQueue
  /-- NotFoundError: item/order absent from the expected collection. -/
  | notFound
  /-- InsufficientFundsError: balance below the required amount. -/
  | insufficientFunds
  /-- InvalidStateError: order not in the status the kitchen queue requires. -/
  | invalidState
  /-- ValueError "Valor deve ser positivo": non-positive money amount. -/
  | invalidAmount
deriving DecidableEq

/-- Embeds `src/Classes/StatusPedido.py`: the eight order statuses. -/
inductive StatusPedido where
  | canceled
  | ordering
  | pendingPayment
  | waiting
  | preparing
  | ready
  | beingDelivered
  | delivered
deriving DecidableEq

namespace StatusPedido

/-- Integer value of each enum member (`CANCELED = -1` … `DELIVERED = 6`). -/
def val : StatusPedido → Int
  | .canceled => -1
  | .ordering => 0
  | .pendingPayment => 1
  | .waiting => 2
  | .preparing => 3
  | .ready => 4
  | .beingDelivered => 5
  | .delivered => 6

/-- Embeds `StatusPedido(self._status.value + 1)`: the member whose value
is one more than the given one, `none` when no such member exists
(`ValueError` in Python). -/
def next : StatusPedido → Option StatusPedido
  | .canceled => some .ordering
  | .ordering => some .pendingPayment
  | .pendingPayment => some .waiting
  | .waiting => some .preparing
  | .preparing => some .ready
  | .ready => some .beingDelivered
  | .beingDelivered => some .delivered
  | .delivered => none

/-- Embeds the Python expression `a < b` on two `StatusPedido` members.
`StatusPedido` derives from plain `enum.Enum`, whose members do not
support ordered comparison, so Python raises `TypeError` before any
boolean is produced. -/
def enumLt (_a _b : StatusPedido) : Except PyErr Bool :=
  .error .typeErrorUnorderable

end StatusPedido

/-- Embeds an item held by an order: a product reference (identity) with
the `price` attribute read by `Pedido.add_item` / `remove_item`.
Produtos define no `__eq__`, so Python list membership and removal
compare by object identity; `pid` carries that identity. -/
structure Item where
  pid : Nat
  price : Rat
deriving DecidableEq

/-- Embeds Python's `list.remove(x)`: removes the first element equal to
`x`, leaves the list unchanged when `x` is absent (the callers in
`Pedido.remove_item` check membership first). -/
def removeFirst {α : Type} [DecidableEq α] : List α → α → List α
  | [], _ => []
  | a :: as, x => if a = x then as else a :: removeFirst as x

/-- Embeds `src/Classes/Pedido.py`: item list, running total and status. -/
structure Pedido where
  items : List Item
  total_price : Rat
  status : StatusPedido
deriving DecidableEq

namespace Pedido

/-- Embeds `Pedido()` with the default arguments: no items, zero total,
status `ORDERING`. -/
def new : Pedido :=
  { items := [], total_price := 0, status := .ordering }

/-- Embeds `Pedido.get_total`. -/
def get_total (p : Pedido) : Rat :=
  p.total_price

/-- Embeds `Pedido.add_item`: appends the item and adds its price to the
running total.  The `None`/`price`-attribute guards cannot fire in the
embedding because every `Item` carries a price. -/
def add_item (p : Pedido) (it : Item) : Pedido × Except PyErr Unit :=
  ({ p with items := p.items ++ [it], total_price := p.total_price + it.price }, .ok ())

/-- Embeds `Pedido.remove_item`: raises NotFoundError when the item is
not in the list, otherwise removes its first occurrence and subtracts
its price. -/
def remove_item (p : Pedido) (it : Item) : Pedido × Except PyErr Unit :=
  if it ∈ p.items then
    ({ p with items := removeFirst p.items it, total_price := p.total_price - it.price }, .ok ())
  else
    (p, .error .notFound)

/-- Embeds `Pedido.change_status`: the `isinstance` guard always passes
in the embedding; then `new_status < self._status and new_status !=
StatusPedido.CANCELED` decides between raising and assigning.  The
comparison goes through `StatusPedido.enumLt`, which is where Python
raises `TypeError` on plain-Enum operands. -/
def change_status (p : Pedido) (new_status : StatusPedido) : Pedido × Except PyErr Unit :=
  match StatusPedido.enumLt new_status p.status with
  | .error e => (p, .error e)
  | .ok true =>
      if new_status ≠ .canceled then
        (p, .error .invalidTransition)
      else
        ({ p with status := new_status }, .ok ())
  | .ok false => ({ p with status := new_status }, .ok ())

/-- Embeds `Pedido.go_to_next_status`: raises on the two terminal
statuses, otherwise moves to the enum member with the next value. -/
def go_to_next_status (p : Pedido) : Pedido × Except PyErr Unit :=
  if p.status = .canceled then
    (p, .error .terminalCanceled)
  else if p.status = .delivered then
    (p, .error .terminalDelivered)
  else
    match p.status.next with
    | some s => ({ p with status := s }, .ok ())
    | none => (p, .error .noNextStatus)

end Pedido

/-- Operations a caller can perform directly on one order. -/
inductive POp where
  | addItem (it : Item)
  | removeItem (it : Item)
  | changeStatus (s : StatusPedido)
  | goNext

/-- One order-level call: the post-call order (exceptions do not roll
back) discarding the outcome. -/
def PStep (p : Pedido) (op : POp) : Pedido :=
  match op with
  | .addItem it => (p.add_item it).1
  | .removeItem it => (p.remove_item it).1
  | .changeStatus s => (p.change_status s).1
  | .goNext => p.go_to_next_status.1

/-- Runs a sequence of order-level calls. -/
def PRun (p : Pedido) : List POp → Pedido
  | [] => p
  | op :: ops => PRun (PStep p op) ops

/-- Sum of the prices of the items of a list. -/
def itemsTotal (l : List Item) : Rat :=
  (l.map Item.price).sum

/-- Embeds `src/Classes/Cliente.py`: balance and the owned cart.  Name,
address and dietary restrictions play no role in the claims. -/
structure Cliente where
  balance : Rat
  cart : Pedido
deriving DecidableEq

namespace Cliente

/-- Embeds `Cliente.add_funds`: raises on a non-positive amount,
otherwise adds it to the balance. -/
def add_funds (c : Cliente) (amount : Rat) : Cliente × Except PyErr Unit :=
  if amount ≤ 0 then
    (c, .error .invalidAmount)
  else
    ({ c with balance := c.balance + amount }, .ok ())

/-- Embeds `Cliente.remove_funds`: raises on a non-positive amount, then
on an amount above the balance, otherwise subtracts it. -/
def remove_funds (c : Cliente) (amount : Rat) : Cliente × Except PyErr Unit :=
  if amount ≤ 0 then
    (c, .error .invalidAmount)
  else if amount > c.balance then
    (c, .error .insufficientFunds)
  else
    ({ c with balance := c.balance - amount }, .ok ())

end Cliente

/-- Embeds `src/Classes/Caixa.py`: the accumulated revenue. -/
structure Caixa where
  total_revenue : Rat
deriving DecidableEq

namespace Caixa

/-- Embeds `Caixa.process_payment(client)`.  The result carries the
post-call cashier, the post-call customer, and the post-call state of
the object that was `client.cart` at entry (the paid order, which a
caller may retain a reference to; the method body never mutates it —
`remove_funds` touches only the balance and the final assignment
replaces the cart reference with a fresh `Pedido()`).  The outcome is
the returned amount or the raised error. -/
def process_payment (cx : Caixa) (client : Cliente) :
    (Caixa × Cliente × Pedido) × Except PyErr Rat :=
  let order_total := client.cart.get_total
  if client.balance < order_total then
    ((cx, client, client.cart), .error .insufficientFunds)
  else
    match client.remove_funds order_total with
    | (client1, .error e) => ((cx, client1, client1.cart), .error e)
    | (client1, .ok ()) =>
        let cx1 : Caixa := { total_revenue := cx.total_revenue + order_total }
        let client2 : Cliente := { client1 with cart := Pedido.new }
        ((cx1, client2, client.cart), .ok order_total)

end Caixa

/-- Operations a caller can perform on one customer and the cashier. -/
inductive COp where
  | addFunds (amount : Rat)
  | removeFunds (amount : Rat)
  | payment

/-- One customer/cashier call: the post-call cashier and customer
(exceptions do not roll back), discarding the outcome. -/
def CStep (s : Caixa × Cliente) (op : COp) : Caixa × Cliente :=
  match op with
  | .addFunds a => (s.1, (s.2.add_funds a).1)
  | .removeFunds a => (s.1, (s.2.remove_funds a).1)
  | .payment => ((s.1.process_payment s.2).1.1, (s.1.process_payment s.2).1.2.1)

/-- Runs a sequence of customer/cashier calls. -/
def CRun (s : Caixa × Cliente) : List COp → Caixa × Cliente
  | [] => s
  | op :: ops => CRun (CStep s op) ops

/-- Embeds `src/Classes/Cozinha.py`: the in-progress dict (its key list,
in insertion order — the order objects themselves live in the kitchen
state's store), the FIFO queue of order references (identifiers), the
chef capacity, and the in-progress counter (a Python int, hence `Int`,
so that its non-negativity is a property and not a typing artifact). -/
structure Cozinha where
  orders_in_progress : List Nat
  orders_in_queue : List Nat
  number_of_chefs : Nat
  number_of_orders_in_progress : Int
deriving DecidableEq

namespace Cozinha

/-- Embeds `Cozinha(number_of_chefs)` after its validation (`number_of_chefs ≥ 1`). -/
def init (number_of_chefs : Nat) : Cozinha :=
  { orders_in_progress := []
    orders_in_queue := []
    number_of_chefs := number_of_chefs
    number_of_orders_in_progress := 0 }

/-- Embeds `Cozinha.is_at_full_capacity`. -/
def is_at_full_capacity (k : Cozinha) : Bool :=
  decide ((k.number_of_chefs : Int) ≤ k.number_of_orders_in_progress)

end Cozinha

/-- Embeds `d[k] = v` on a Python dict, restricted to its key list: an
existing key keeps its position (and its entry is overwritten), a new
key is appended. -/
def dictInsert (ks : List Nat) (k : Nat) : List Nat :=
  if k ∈ ks then ks else ks ++ [k]

/-- Kitchen-level state: the kitchen object together with the store of
order objects reachable from it, keyed by identifier.  Two queue
entries carrying the same identifier alias one store entry, exactly as
two Python references alias one object.  Only an order's status matters
to the kitchen operations. -/
structure KState where
  cozinha : Cozinha
  orders : List (Nat × StatusPedido)
deriving DecidableEq

/-- Status of the order object with identifier `i` in the store. -/
def lookupStatus (h : List (Nat × StatusPedido)) (i : Nat) : Option StatusPedido :=
  match h with
  | [] => none
  | (j, s) :: rest => if j = i then some s else lookupStatus rest i

/-- Overwrites the status of the order object with identifier `i`. -/
def setStatus (h : List (Nat × StatusPedido)) (i : Nat) (s : StatusPedido) :
    List (Nat × StatusPedido) :=
  match h with
  | [] => []
  | (j, t) :: rest => if j = i then (j, s) :: rest else (j, t) :: setStatus rest i s

namespace KState

/-- Applies `order.go_to_next_status()` to the store entry `i` (the
same branch structure as `Pedido.go_to_next_status`).  The `none`
branch is a modelling artifact: a kitchen call always holds a real
order reference, so every identifier the traces use is present in the
store. -/
def goNext (st : KState) (i : Nat) : KState × Except PyErr Unit :=
  match lookupStatus st.orders i with
  | none => (st, .error .notFound)
  | some s =>
      if s = .canceled then (st, .error .terminalCanceled)
      else if s = .delivered then (st, .error .terminalDelivered)
      else
        match s.next with
        | some s1 => ({ st with orders := setStatus st.orders i s1 }, .ok ())
        | none => (st, .error .noNextStatus)

/-- Embeds `Cozinha.add_order_to_queue(order)` for the order object with
identifier `i`: only a `PENDING_PAYMENT` order may enter; it is
appended at the tail. -/
def add_order_to_queue (st : KState) (i : Nat) : KState × Except PyErr Unit :=
  match lookupStatus st.orders i with
  | none => (st, .error .notFound)
  | some s =>
      if s ≠ .pendingPayment then (st, .error .invalidState)
      else
        ({ st with cozinha :=
            { st.cozinha with orders_in_queue := st.cozinha.orders_in_queue ++ [i] } },
         .ok ())

/-- Embeds `Cozinha.add_priority_order_to_queue(order)`: same
precondition, inserted at the head. -/
def add_priority_order_to_queue (st : KState) (i : Nat) : KState × Except PyErr Unit :=
  match lookupStatus st.orders i with
  | none => (st, .error .notFound)
  | some s =>
      if s ≠ .pendingPayment then (st, .error .invalidState)
      else
        ({ st with cozinha :=
            { st.cozinha with orders_in_queue := i :: st.cozinha.orders_in_queue } },
         .ok ())

/-- Embeds `Cozinha.start_next_order`: capacity check first, then the
empty-queue check; then the head is popped (a mutation that persists
even if the subsequent status advance raises), the order's status is
advanced, the order is inserted into the in-progress dict under its
identifier and the counter is incremented. -/
def start_next_order (st : KState) : KState × Except PyErr Nat :=
  if st.cozinha.is_at_full_capacity then
    (st, .error .capacityExceeded)
  else
    match st.cozinha.orders_in_queue with
    | [] => (st, .error .emptyQueue)
    | i :: rest =>
        let st1 : KState := { st with cozinha := { st.cozinha with orders_in_queue := rest } }
        match st1.goNext i with
        | (st2, .error e) => (st2, .error e)
        | (st2, .ok ()) =>
            ({ st2 with cozinha :=
                { st2.cozinha with
                    orders_in_progress := dictInsert st2.cozinha.orders_in_progress i
                    number_of_orders_in_progress :=
                      st2.cozinha.number_of_orders_in_progress + 1 } },
             .ok i)

/-- Embeds `Cozinha.complete_order(order)` for the order object with
identifier `i`: raises NotFoundError when `i` is not an in-progress
key; otherwise the key is deleted and the counter decremented before
the status advance (mutations that persist even if the advance
raises). -/
def complete_order (st : KState) (i : Nat) : KState × Except PyErr Unit :=
  if i ∈ st.cozinha.orders_in_progress then
    let st1 : KState := { st with cozinha :=
      { st.cozinha with
          orders_in_progress := removeFirst st.cozinha.orders_in_progress i
          number_of_orders_in_progress := st.cozinha.number_of_orders_in_progress - 1 } }
    st1.goNext i
  else
    (st, .error .notFound)

/-- A freshly constructed kitchen together with a store of order
objects. -/
def init (cap : Nat) (orders : List (Nat × StatusPedido)) : KState :=
  { cozinha := Cozinha.init cap, orders := orders }

end KState

/-- Operations a caller can perform on the kitchen. -/
inductive KOp where
  | addOrder (i : Nat)
  | addPriorityOrder (i : Nat)
  | startNext
  | completeOrder (i : Nat)

/-- One kitchen call: the post-call state (exceptions do not roll back),
discarding the outcome. -/
def KStep (st : KState) (op : KOp) : KState :=
  match op with
  | .addOrder i => (st.add_order_to_queue i).1
  | .addPriorityOrder i => (st.add_priority_order_to_queue i).1
  | .startNext => st.start_next_order.1
  | .completeOrder i => (st.complete_order i).1

/-- Runs a sequence of kitchen calls. -/
def KRun (st : KState) : List KOp → KState
  | [] => st
  | op :: ops => KRun (KStep st op) ops

/-! ## Helper lemmas -/

theorem itemsTotal_cons (a : Item) (l : List Item) :
    itemsTotal (a :: l) = a.price + itemsTotal l := by
  simp [itemsTotal]

theorem itemsTotal_append_single (l : List Item) (a : Item) :
    itemsTotal (l ++ [a]) = itemsTotal l + a.price := by
  simp [itemsTotal]

theorem itemsTotal_removeFirst (l : List Item) (it : Item) (h : it ∈ l) :
    itemsTotal (removeFirst l it) = itemsTotal l - it.price := by
  induction l with
  | nil => cases h
  | cons a as ih =>
      by_cases hax : a = it
      · subst hax
        simp [removeFirst, itemsTotal_cons]
      · have hmem : it ∈ as := by
          rcases List.mem_cons.mp h with h1 | h1
          · exact absurd h1.symm hax
          · exact h1
        simp only [removeFirst, if_neg hax, itemsTotal_cons, ih hmem]
        ring

theorem PStep_total (p : Pedido) (op : POp) (h : p.total_price = itemsTotal p.items) :
    (PStep p op).total_price = itemsTotal (PStep p op).items := by
  cases op with
  | addItem it =>
      simp [PStep, Pedido.add_item, itemsTotal_append_single, h]
  | removeItem it =>
      by_cases hm : it ∈ p.items
      · simp [PStep, Pedido.remove_item, hm, itemsTotal_removeFirst p.items it hm, h]
      · simp [PStep, Pedido.remove_item, hm, h]
  | changeStatus s => exact h
  | goNext =>
      have : p.go_to_next_status.1.items = p.items ∧
          p.go_to_next_status.1.total_price = p.total_price := by
        unfold Pedido.go_to_next_status
        split
        · exact ⟨rfl, rfl⟩
        · split
          · exact ⟨rfl, rfl⟩
          · split <;> exact ⟨rfl, rfl⟩
      simpa [PStep, this.1, this.2] using h

theorem PRun_total (p : Pedido) (ops : List POp) (h : p.total_price = itemsTotal p.items) :
    (PRun p ops).total_price = itemsTotal (PRun p ops).items := by
  induction ops generalizing p with
  | nil => exact h
  | cons op ops ih => exact ih (PStep p op) (PStep_total p op h)

theorem PStep_status_of_terminal (p : Pedido) (op : POp)
    (h : p.status = .canceled ∨ p.status = .delivered) :
    (PStep p op).status = p.status := by
  cases op with
  | addItem it => rfl
  | removeItem it =>
      by_cases hm : it ∈ p.items <;> simp [PStep, Pedido.remove_item, hm]
  | changeStatus s => rfl
  | goNext =>
      rcases h with h | h <;> simp [PStep, Pedido.go_to_next_status, h]

theorem PRun_status_of_terminal (p : Pedido) (ops : List POp)
    (h : p.status = .canceled ∨ p.status = .delivered) :
    (PRun p ops).status = p.status := by
  induction ops generalizing p with
  | nil => rfl
  | cons op ops ih =>
      have hs := PStep_status_of_terminal p op h
      have hterm : (PStep p op).status = .canceled ∨ (PStep p op).status = .delivered := by
        rw [hs]; exact h
      rw [PRun, ih (PStep p op) hterm, hs]

theorem removeFirst_length {α : Type} [DecidableEq α] (l : List α) (x : α) (h : x ∈ l) :
    (removeFirst l x).length + 1 = l.length := by
  induction l with
  | nil => cases h
  | cons a as ih =>
      by_cases hax : a = x
      · simp [removeFirst, hax]
      · have hmem : x ∈ as := by
          rcases List.mem_cons.mp h with h1 | h1
          · exact absurd h1.symm hax
          · exact h1
        simp [removeFirst, hax, ih hmem]

theorem not_mem_removeFirst {α : Type} [DecidableEq α] (l : List α) (x : α) (h : l.Nodup) :
    x ∉ removeFirst l x := by
  induction l with
  | nil => simp [removeFirst]
  | cons a as ih =>
      rw [List.nodup_cons] at h
      by_cases hax : a = x
      · subst hax
        simpa [removeFirst] using h.1
      · simp only [removeFirst, if_neg hax, List.mem_cons]
        rintro (h1 | h1)
        · exact hax h1.symm
        · exact ih h.2 h1

theorem dictInsert_length (ks : List Nat) (k : Nat) :
    (dictInsert ks k).length ≤ ks.length + 1 := by
  unfold dictInsert
  split <;> simp

theorem goNext_cozinha (st : KState) (i : Nat) : (st.goNext i).1.cozinha = st.cozinha := by
  unfold KState.goNext
  split
  · rfl
  · split
    · rfl
    · split
      · rfl
      · split <;> rfl

theorem goNext_cases (st : KState) (i : Nat) (s : StatusPedido)
    (h : lookupStatus st.orders i = some s) :
    (s = .canceled → st.goNext i = (st, .error .terminalCanceled)) ∧
    (s = .delivered → st.goNext i = (st, .error .terminalDelivered)) ∧
    (∀ s1, s.next = some s1 → s ≠ .canceled → s ≠ .delivered →
      st.goNext i = ({ st with orders := setStatus st.orders i s1 }, .ok ())) := by
  refine ⟨fun hc => ?_, fun hd => ?_, fun s1 hnext hnc hnd => ?_⟩
  · subst hc
    simp [KState.goNext, h]
  · subst hd
    simp [KState.goNext, h]
  · simp [KState.goNext, h, hnc, hnd, hnext]

theorem start_next_order_cases (st : KState) :
    (st.cozinha.is_at_full_capacity = true →
      st.start_next_order = (st, .error .capacityExceeded)) ∧
    (st.cozinha.is_at_full_capacity = false → st.cozinha.orders_in_queue = [] →
      st.start_next_order = (st, .error .emptyQueue)) ∧
    (∀ i rest, st.cozinha.is_at_full_capacity = false →
      st.cozinha.orders_in_queue = i :: rest →
      (∀ e st2,
        ({ st with cozinha := { st.cozinha with orders_in_queue := rest } } : KState).goNext i
            = (st2, .error e) →
        st.start_next_order = (st2, .error e)) ∧
      (∀ st2,
        ({ st with cozinha := { st.cozinha with orders_in_queue := rest } } : KState).goNext i
            = (st2, .ok ()) →
        st.start_next_order =
          ({ st2 with cozinha := { st2.cozinha with
              orders_in_progress := dictInsert st2.cozinha.orders_in_progress i
              number_of_orders_in_progress :=
                st2.cozinha.number_of_orders_in_progress + 1 } },
            .ok i))) := by
  refine ⟨fun hcap => ?_, fun hcap hq => ?_, fun i rest hcap hq => ⟨fun e st2 hg => ?_, fun st2 hg => ?_⟩⟩
  · simp [KState.start_next_order, hcap]
  · simp [KState.start_next_order, hcap, hq]
  · simp [KState.start_next_order, hcap, hq, hg]
  · simp [KState.start_next_order, hcap, hq, hg]

theorem start_next_order_count (st : KState) :
    st.start_next_order.1.cozinha.number_of_chefs = st.cozinha.number_of_chefs ∧
    ((st.start_next_order.1.cozinha.number_of_orders_in_progress =
        st.cozinha.number_of_orders_in_progress ∧
      st.start_next_order.1.cozinha.orders_in_progress = st.cozinha.orders_in_progress) ∨
      (st.cozinha.number_of_orders_in_progress < (st.cozinha.number_of_chefs : Int) ∧
        st.start_next_order.1.cozinha.number_of_orders_in_progress =
          st.cozinha.number_of_orders_in_progress + 1 ∧
        ∃ j, st.start_next_order.1.cozinha.orders_in_progress =
          dictInsert st.cozinha.orders_in_progress j)) := by
  by_cases hcap : st.cozinha.is_at_full_capacity
  · rw [(start_next_order_cases st).1 hcap]
    exact ⟨rfl, Or.inl ⟨rfl, rfl⟩⟩
  · have hcap' : st.cozinha.is_at_full_capacity = false := by simpa using hcap
    have hlt : st.cozinha.number_of_orders_in_progress < (st.cozinha.number_of_chefs : Int) :=
      lt_of_not_le (by simpa [Cozinha.is_at_full_capacity] using hcap)
    cases hq : st.cozinha.orders_in_queue with
    | nil =>
        rw [(start_next_order_cases st).2.1 hcap' hq]
        exact ⟨rfl, Or.inl ⟨rfl, rfl⟩⟩
    | cons i rest =>
        obtain ⟨e1, e2⟩ := (start_next_order_cases st).2.2 i rest hcap' hq
        rcases hg : ({ st with cozinha :=
            { st.cozinha with orders_in_queue := rest } } : KState).goNext i with ⟨st2, r⟩
        have hc2 : st2.cozinha = { st.cozinha with orders_in_queue := rest } := by
          have hgc := goNext_cozinha
            ({ st with cozinha := { st.cozinha with orders_in_queue := rest } } : KState) i
          rw [hg] at hgc
          exact hgc
        cases r with
        | error e =>
            rw [e1 e st2 hg, hc2]
            exact ⟨rfl, Or.inl ⟨rfl, rfl⟩⟩
        | ok u =>
            cases u
            rw [e2 st2 hg]
            refine ⟨?_, Or.inr ⟨hlt, ?_, ⟨i, ?_⟩⟩⟩ <;> simp [hc2]

theorem complete_order_count (st : KState) (i : Nat) :
    (st.complete_order i).1.cozinha.number_of_chefs = st.cozinha.number_of_chefs ∧
    (st.complete_order i).1.cozinha.orders_in_queue = st.cozinha.orders_in_queue ∧
    (((st.complete_order i).1.cozinha.number_of_orders_in_progress =
        st.cozinha.number_of_orders_in_progress ∧
      (st.complete_order i).1.cozinha.orders_in_progress = st.cozinha.orders_in_progress) ∨
      (i ∈ st.cozinha.orders_in_progress ∧
        (st.complete_order i).1.cozinha.number_of_orders_in_progress =
          st.cozinha.number_of_orders_in_progress - 1 ∧
        (st.complete_order i).1.cozinha.orders_in_progress =
          removeFirst st.cozinha.orders_in_progress i)) := by
  by_cases hm : i ∈ st.cozinha.orders_in_progress
  · have hdef : (st.complete_order i).1 =
        (({ st with cozinha := { st.cozinha with
            orders_in_progress := removeFirst st.cozinha.orders_in_progress i
            number_of_orders_in_progress :=
              st.cozinha.number_of_orders_in_progress - 1 } } : KState).goNext i).1 := by
      simp [KState.complete_order, hm]
    rw [hdef, goNext_cozinha]
    exact ⟨rfl, rfl, Or.inr ⟨hm, rfl, rfl⟩⟩
  · have hdef : st.complete_order i = (st, .error .notFound) := by
      simp [KState.complete_order, hm]
    rw [hdef]
    exact ⟨rfl, rfl, Or.inl ⟨rfl, rfl⟩⟩

theorem complete_order_not_mem (st : KState) (i : Nat)
    (h : i ∉ st.cozinha.orders_in_progress) :
    st.complete_order i = (st, .error .notFound) := by
  simp [KState.complete_order, h]

theorem add_order_cozinha (st : KState) (i : Nat) :
    (st.add_order_to_queue i).1.cozinha.orders_in_progress = st.cozinha.orders_in_progress ∧
    (st.add_order_to_queue i).1.cozinha.number_of_chefs = st.cozinha.number_of_chefs ∧
    (st.add_order_to_queue i).1.cozinha.number_of_orders_in_progress =
      st.cozinha.number_of_orders_in_progress := by
  unfold KState.add_order_to_queue
  split
  · exact ⟨rfl, rfl, rfl⟩
  · split <;> exact ⟨rfl, rfl, rfl⟩

theorem add_priority_order_cozinha (st : KState) (i : Nat) :
    (st.add_priority_order_to_queue i).1.cozinha.orders_in_progress =
      st.cozinha.orders_in_progress ∧
    (st.add_priority_order_to_queue i).1.cozinha.number_of_chefs = st.cozinha.number_of_chefs ∧
    (st.add_priority_order_to_queue i).1.cozinha.number_of_orders_in_progress =
      st.cozinha.number_of_orders_in_progress := by
  unfold KState.add_priority_order_to_queue
  split
  · exact ⟨rfl, rfl, rfl⟩
  · split <;> exact ⟨rfl, rfl, rfl⟩

theorem KStep_cap (cap : Nat) (st : KState) (op : KOp)
    (h1 : st.cozinha.number_of_chefs = cap)
    (h2 : st.cozinha.number_of_orders_in_progress ≤ (cap : Int)) :
    (KStep st op).cozinha.number_of_chefs = cap ∧
    (KStep st op).cozinha.number_of_orders_in_progress ≤ (cap : Int) := by
  cases op with
  | addOrder i =>
      obtain ⟨_, hc, hn⟩ := add_order_cozinha st i
      exact ⟨by rw [KStep, hc, h1], by rw [KStep, hn]; exact h2⟩
  | addPriorityOrder i =>
      obtain ⟨_, hc, hn⟩ := add_priority_order_cozinha st i
      exact ⟨by rw [KStep, hc, h1], by rw [KStep, hn]; exact h2⟩
  | startNext =>
      obtain ⟨hc, hdisj⟩ := start_next_order_count st
      refine ⟨by rw [KStep, hc, h1], ?_⟩
      rcases hdisj with ⟨hn, _⟩ | ⟨hlt, hn, _⟩
      · rw [KStep, hn]
        exact h2
      · rw [KStep, hn]
        rw [h1] at hlt
        omega
  | completeOrder i =>
      obtain ⟨hc, _, hdisj⟩ := complete_order_count st i
      refine ⟨by rw [KStep, hc, h1], ?_⟩
      rcases hdisj with ⟨hn, _⟩ | ⟨_, hn, _⟩
      · rw [KStep, hn]
        exact h2
      · rw [KStep, hn]
        omega

theorem KRun_cap (cap : Nat) (st : KState) (ops : List KOp)
    (h1 : st.cozinha.number_of_chefs = cap)
    (h2 : st.cozinha.number_of_orders_in_progress ≤ (cap : Int)) :
    (KRun st ops).cozinha.number_of_chefs = cap ∧
    (KRun st ops).cozinha.number_of_orders_in_progress ≤ (cap : Int) := by
  induction ops generalizing st with
  | nil => exact ⟨h1, h2⟩
  | cons op ops ih =>
      obtain ⟨g1, g2⟩ := KStep_cap cap st op h1 h2
      exact ih (KStep st op) g1 g2

theorem KStep_len (st : KState) (op : KOp)
    (h : (st.cozinha.orders_in_progress.length : Int) ≤
      st.cozinha.number_of_orders_in_progress) :
    ((KStep st op).cozinha.orders_in_progress.length : Int) ≤
      (KStep st op).cozinha.number_of_orders_in_progress := by
  cases op with
  | addOrder i =>
      obtain ⟨hm, _, hn⟩ := add_order_cozinha st i
      rw [KStep, hm, hn]
      exact h
  | addPriorityOrder i =>
      obtain ⟨hm, _, hn⟩ := add_priority_order_cozinha st i
      rw [KStep, hm, hn]
      exact h
  | startNext =>
      obtain ⟨_, hdisj⟩ := start_next_order_count st
      rcases hdisj with ⟨hn, hm⟩ | ⟨_, hn, j, hm⟩
      · rw [KStep, hn, hm]
        exact h
      · rw [KStep, hn, hm]
        have := dictInsert_length st.cozinha.orders_in_progress j
        omega
  | completeOrder i =>
      obtain ⟨_, _, hdisj⟩ := complete_order_count st i
      rcases hdisj with ⟨hn, hm⟩ | ⟨hmem, hn, hm⟩
      · rw [KStep, hn, hm]
        exact h
      · rw [KStep, hn, hm]
        have := removeFirst_length st.cozinha.orders_in_progress i hmem
        omega

theorem KRun_len (st : KState) (ops : List KOp)
    (h : (st.cozinha.orders_in_progress.length : Int) ≤
      st.cozinha.number_of_orders_in_progress) :
    ((KRun st ops).cozinha.orders_in_progress.length : Int) ≤
      (KRun st ops).cozinha.number_of_orders_in_progress := by
  induction ops generalizing st with
  | nil => exact h
  | cons op ops ih => exact ih (KStep st op) (KStep_len st op h)

theorem process_payment_cases (cx : Caixa) (c : Cliente) :
    (c.balance < c.cart.get_total →
      cx.process_payment c = ((cx, c, c.cart), .error .insufficientFunds)) ∧
    (¬ c.balance < c.cart.get_total → 0 < c.cart.get_total →
      cx.process_payment c =
        ((⟨cx.total_revenue + c.cart.get_total⟩,
          ⟨c.balance - c.cart.get_total, Pedido.new⟩, c.cart), .ok c.cart.get_total)) ∧
    (¬ c.balance < c.cart.get_total → c.cart.get_total ≤ 0 →
      cx.process_payment c = ((cx, c, c.cart), .error .invalidAmount)) := by
  refine ⟨fun hlt => ?_, fun hlt hpos => ?_, fun hlt hnp => ?_⟩
  · simp [Caixa.process_payment, hlt]
  · simp [Caixa.process_payment, Cliente.remove_funds, hlt, not_le.mpr hpos]
  · simp [Caixa.process_payment, Cliente.remove_funds, hlt, hnp]

theorem process_payment_iff_insufficient (cx : Caixa) (c : Cliente) :
    (cx.process_payment c).2 = .error .insufficientFunds ↔ c.balance < c.cart.get_total := by
  rcases lt_or_le c.balance c.cart.get_total with h | h
  · simp [(process_payment_cases cx c).1 h, h]
  · have hnlt : ¬ c.balance < c.cart.get_total := not_lt.mpr h
    rcases le_or_lt c.cart.get_total 0 with h0 | h0
    · simp [(process_payment_cases cx c).2.2 hnlt h0, hnlt]
    · simp [(process_payment_cases cx c).2.1 hnlt h0, hnlt]

theorem remove_funds_balance_nonneg (c : Cliente) (a : Rat) (h : 0 ≤ c.balance) :
    0 ≤ (c.remove_funds a).1.balance := by
  unfold Cliente.remove_funds
  split_ifs with h1 h2
  · exact h
  · exact h
  · have : a ≤ c.balance := not_lt.mp h2
    dsimp
    linarith

theorem process_payment_balance_nonneg (cx : Caixa) (c : Cliente) (h : 0 ≤ c.balance) :
    0 ≤ ((cx.process_payment c).1.2.1).balance := by
  rcases lt_or_le c.balance c.cart.get_total with hlt | hle
  · rw [(process_payment_cases cx c).1 hlt]
    exact h
  · have hnlt : ¬ c.balance < c.cart.get_total := not_lt.mpr hle
    rcases le_or_lt c.cart.get_total 0 with h0 | h0
    · rw [(process_payment_cases cx c).2.2 hnlt h0]
      exact h
    · rw [(process_payment_cases cx c).2.1 hnlt h0]
      dsimp
      linarith

theorem CStep_balance_nonneg (s : Caixa × Cliente) (op : COp) (h : 0 ≤ s.2.balance) :
    0 ≤ (CStep s op).2.balance := by
  obtain ⟨cx, c⟩ := s
  cases op with
  | addFunds a =>
      simp only [CStep, Cliente.add_funds]
      split_ifs with h1
      · exact h
      · have : 0 < a := lt_of_not_le h1
        dsimp
        dsimp at h
        linarith
  | removeFunds a => exact remove_funds_balance_nonneg c a h
  | payment => exact process_payment_balance_nonneg cx c h

theorem CRun_balance_nonneg (s : Caixa × Cliente) (ops : List COp) (h : 0 ≤ s.2.balance) :
    0 ≤ (CRun s ops).2.balance := by
  induction ops generalizing s with
  | nil => exact h
  | cons op ops ih => exact ih (CStep s op) (CStep_balance_nonneg s op h)

/-! ## Claim theorems -/

/-- C1 (counterexample): a successful `Caixa.process_payment` leaves
the paid order's status untouched.  With balance 10 and a cart of total
10 in status ORDERING, the call succeeds returning 10, yet the paid
order is still in ORDERING; the one-step advance the claim describes
would have produced PENDING_PAYMENT. -/
theorem process_payment_no_status_advance :
    ((⟨0⟩ : Caixa).process_payment
        ⟨10, { items := [⟨1, 10⟩], total_price := 10, status := .ordering }⟩).2 = .ok 10 ∧
    (((⟨0⟩ : Caixa).process_payment
        ⟨10, { items := [⟨1, 10⟩], total_price := 10, status := .ordering }⟩).1.2.2).status =
      .ordering ∧
    StatusPedido.ordering.next = some .pendingPayment := by
  refine ⟨?_, rfl, rfl⟩
  have h := (process_payment_cases ⟨0⟩
    ⟨10, { items := [⟨1, 10⟩], total_price := 10, status := .ordering }⟩).2.1
    (by decide) (by decide)
  rw [h]
  rfl

/-- C1 (amended): for a customer whose balance covers the cart's
positive total, `process_payment` verifies the balance, debits the
customer, credits the cashier's revenue and detaches the paid order by
replacing the cart with a new empty order; the paid order itself — in
particular its status — is left unchanged. -/
theorem process_payment_settlement (cx : Caixa) (c : Cliente)
    (hbal : c.cart.get_total ≤ c.balance) (hpos : 0 < c.cart.get_total) :
    (cx.process_payment c).2 = .ok c.cart.get_total ∧
    ((cx.process_payment c).1.1).total_revenue = cx.total_revenue + c.cart.get_total ∧
    ((cx.process_payment c).1.2.1).balance = c.balance - c.cart.get_total ∧
    ((cx.process_payment c).1.2.1).cart = Pedido.new ∧
    (cx.process_payment c).1.2.2 = c.cart ∧
    ((cx.process_payment c).1.2.2).status = c.cart.status := by
  have h := (process_payment_cases cx c).2.1 (not_lt.mpr hbal) hpos
  rw [h]
  exact ⟨rfl, rfl, rfl, rfl, rfl, rfl⟩

/-- Closed instance of `process_payment_settlement`: the paid order's
status after a successful settlement is the status it had at call
time. -/
theorem process_payment_settlement_witness :
    (((⟨0⟩ : Caixa).process_payment
        ⟨10, { items := [⟨2, 10⟩], total_price := 10, status := .pendingPayment }⟩).1.2.2).status =
      ({ items := [⟨2, 10⟩], total_price := 10, status := .pendingPayment } : Pedido).status :=
  (process_payment_settlement ⟨0⟩
    ⟨10, { items := [⟨2, 10⟩], total_price := 10, status := .pendingPayment }⟩
    (by decide) (by decide)).2.2.2.2.2

/-- C2 (counterexample): with balance 5 and an empty cart (total 0),
the balance is not below the total, yet `process_payment` does not
perform the claimed successful settlement: it fails (with the
invalid-amount error raised by `remove_funds(0)`) and leaves the
cashier, the customer and the cart unchanged. -/
theorem process_payment_zero_total_counterexample :
    ¬ ((⟨5, Pedido.new⟩ : Cliente).balance < (⟨5, Pedido.new⟩ : Cliente).cart.get_total) ∧
    (⟨0⟩ : Caixa).process_payment ⟨5, Pedido.new⟩ =
      ((⟨0⟩, ⟨5, Pedido.new⟩, Pedido.new), .error .invalidAmount) := by
  refine ⟨by decide, ?_⟩
  exact (process_payment_cases ⟨0⟩ ⟨5, Pedido.new⟩).2.2 (by decide) (by decide)

/-- C2 (amended): `process_payment` fails with InsufficientFundsError
exactly when the balance is below the cart total, leaving everything
unchanged; when the balance covers a positive total it debits the
total, credits it to revenue, replaces the cart with a new empty order
and returns the total; when the balance covers a non-positive total
(an empty cart) it fails with the invalid-amount error from
`remove_funds`, leaving everything unchanged. -/
theorem process_payment_spec (cx : Caixa) (c : Cliente) :
    ((cx.process_payment c).2 = .error .insufficientFunds ↔ c.balance < c.cart.get_total) ∧
    (c.balance < c.cart.get_total →
      cx.process_payment c = ((cx, c, c.cart), .error .insufficientFunds)) ∧
    (¬ c.balance < c.cart.get_total → 0 < c.cart.get_total →
      cx.process_payment c =
        ((⟨cx.total_revenue + c.cart.get_total⟩,
          ⟨c.balance - c.cart.get_total, Pedido.new⟩, c.cart), .ok c.cart.get_total)) ∧
    (¬ c.balance < c.cart.get_total → c.cart.get_total ≤ 0 →
      cx.process_payment c = ((cx, c, c.cart), .error .invalidAmount)) :=
  ⟨process_payment_iff_insufficient cx c, (process_payment_cases cx c).1,
    (process_payment_cases cx c).2.1, (process_payment_cases cx c).2.2⟩

/-- Closed instance of `process_payment_spec`: a settlement at balance
10 against a cart of total 10. -/
theorem process_payment_spec_witness :
    (⟨3⟩ : Caixa).process_payment
        ⟨10, { items := [⟨1, 10⟩], total_price := 10, status := .ordering }⟩ =
      ((⟨(3 : Rat) + 10⟩, ⟨(10 : Rat) - 10, Pedido.new⟩,
        { items := [⟨1, 10⟩], total_price := 10, status := .ordering }), .ok 10) :=
  (process_payment_spec ⟨3⟩
    ⟨10, { items := [⟨1, 10⟩], total_price := 10, status := .ordering }⟩).2.2.1
    (by decide) (by decide)

/-- C9: a customer created with a non-negative balance keeps a
non-negative balance under every sequence of `add_funds`,
`remove_funds` and `process_payment` calls; `add_funds` fails on a
non-positive amount and `remove_funds` fails on a non-positive amount
or one above the balance, leaving the customer unchanged in every
failure case. -/
theorem balance_never_negative (cx : Caixa) (c : Cliente) (h0 : 0 ≤ c.balance) :
    (∀ ops : List COp, 0 ≤ (CRun (cx, c) ops).2.balance) ∧
    (∀ a, a ≤ 0 → c.add_funds a = (c, .error .invalidAmount)) ∧
    (∀ a, a ≤ 0 → c.remove_funds a = (c, .error .invalidAmount)) ∧
    (∀ a, 0 < a → c.balance < a → c.remove_funds a = (c, .error .insufficientFunds)) := by
  refine ⟨fun ops => CRun_balance_nonneg (cx, c) ops h0,
    fun a ha => ?_, fun a ha => ?_, fun a ha hb => ?_⟩
  · simp [Cliente.add_funds, ha]
  · simp [Cliente.remove_funds, ha]
  · simp [Cliente.remove_funds, not_le.mpr ha, hb]

/-- Closed instance of `balance_never_negative`: the balance stays
non-negative along a concrete add/remove/payment sequence. -/
theorem balance_never_negative_witness :
    0 ≤ (CRun (⟨0⟩, ⟨5, Pedido.new⟩) [.addFunds 2, .removeFunds 3, .payment]).2.balance :=
  (balance_never_negative ⟨0⟩ ⟨5, Pedido.new⟩ (by decide)).1
    [.addFunds 2, .removeFunds 3, .payment]

/-- C3: starting from a freshly constructed kitchen with positive
capacity, no sequence of queue/start/complete calls ever drives the
in-progress counter above the capacity. -/
theorem kitchen_capacity_never_exceeded (cap : Nat) (orders : List (Nat × StatusPedido))
    (hcap : 1 ≤ cap) (ops : List KOp) :
    (KRun (KState.init cap orders) ops).cozinha.number_of_orders_in_progress ≤ (cap : Int) :=
  (KRun_cap cap (KState.init cap orders) ops rfl (by simp [KState.init, Cozinha.init])).2

/-- Closed instance of `kitchen_capacity_never_exceeded` at capacity 1
and a concrete call sequence that fills the kitchen. -/
theorem kitchen_capacity_never_exceeded_witness :
    (KRun (KState.init 1 [(1, .pendingPayment), (2, .pendingPayment)])
        [.addOrder 1, .addOrder 2, .startNext, .startNext, .completeOrder 1,
          .startNext]).cozinha.number_of_orders_in_progress ≤ ((1 : Nat) : Int) :=
  kitchen_capacity_never_exceeded 1 [(1, .pendingPayment), (2, .pendingPayment)] (by decide)
    [.addOrder 1, .addOrder 2, .startNext, .startNext, .completeOrder 1, .startNext]

/-- C4 (counterexample): `start_next_order` can fail even when the
kitchen is below capacity and the queue is non-empty, and such a
failure mutates the queue.  Reached through the public interface: one
`PENDING_PAYMENT` order enqueued six times (legal, since its status is
checked only at enqueue time) and started five times leaves it
DELIVERED at the head of the queue; the sixth start pops the head and
then fails with the terminal-state error, with the popped entry already
lost from the queue. -/
theorem start_next_order_failure_counterexample :
    (KRun (KState.init 6 [(1, .pendingPayment)])
        [.addOrder 1, .addOrder 1, .addOrder 1, .addOrder 1, .addOrder 1, .addOrder 1,
          .startNext, .startNext, .startNext, .startNext,
          .startNext]).cozinha.is_at_full_capacity = false ∧
    (KRun (KState.init 6 [(1, .pendingPayment)])
        [.addOrder 1, .addOrder 1, .addOrder 1, .addOrder 1, .addOrder 1, .addOrder 1,
          .startNext, .startNext, .startNext, .startNext,
          .startNext]).cozinha.orders_in_queue = [1] ∧
    (KRun (KState.init 6 [(1, .pendingPayment)])
        [.addOrder 1, .addOrder 1, .addOrder 1, .addOrder 1, .addOrder 1, .addOrder 1,
          .startNext, .startNext, .startNext, .startNext,
          .startNext]).start_next_order.2 = .error .terminalDelivered ∧
    (KRun (KState.init 6 [(1, .pendingPayment)])
        [.addOrder 1, .addOrder 1, .addOrder 1, .addOrder 1, .addOrder 1, .addOrder 1,
          .startNext, .startNext, .startNext, .startNext,
          .startNext]).start_next_order.1.cozinha.orders_in_queue = [] := by
  decide

/-- C4 (amended): `start_next_order` fails with CapacityExceededError
when the in-progress count has reached the capacity (this check coming
first, leaving the state unchanged); otherwise fails with
EmptyQueueError on an empty queue (state unchanged); otherwise pops the
head of the FIFO queue and — if the head order's status is terminal —
fails with the terminal-state error with the head already removed,
while in every other case it advances the head's status by one step,
inserts it into the in-progress dict under its identifier, increments
the counter and returns it. -/
theorem start_next_order_spec (st : KState) :
    (st.cozinha.is_at_full_capacity = true →
      st.start_next_order = (st, .error .capacityExceeded)) ∧
    (st.cozinha.is_at_full_capacity = false → st.cozinha.orders_in_queue = [] →
      st.start_next_order = (st, .error .emptyQueue)) ∧
    (∀ i rest s, st.cozinha.is_at_full_capacity = false →
      st.cozinha.orders_in_queue = i :: rest →
      lookupStatus st.orders i = some s →
      ((s = .canceled →
          st.start_next_order =
            ({ st with cozinha := { st.cozinha with orders_in_queue := rest } },
              .error .terminalCanceled)) ∧
        (s = .delivered →
          st.start_next_order =
            ({ st with cozinha := { st.cozinha with orders_in_queue := rest } },
              .error .terminalDelivered)) ∧
        (∀ s1, s.next = some s1 → s ≠ .canceled → s ≠ .delivered →
          st.start_next_order =
            ({ cozinha :=
                { orders_in_progress := dictInsert st.cozinha.orders_in_progress i
                  orders_in_queue := rest
                  number_of_chefs := st.cozinha.number_of_chefs
                  number_of_orders_in_progress :=
                    st.cozinha.number_of_orders_in_progress + 1 }
               orders := setStatus st.orders i s1 }, .ok i)))) := by
  obtain ⟨h1, h2, h3⟩ := start_next_order_cases st
  refine ⟨h1, h2, fun i rest s hcap hq hs => ?_⟩
  obtain ⟨e1, e2⟩ := h3 i rest hcap hq
  have hs1 : lookupStatus
      ({ st with cozinha := { st.cozinha with orders_in_queue := rest } } : KState).orders i =
      some s := hs
  obtain ⟨g1, g2, g3⟩ := goNext_cases
    ({ st with cozinha := { st.cozinha with orders_in_queue := rest } } : KState) i s hs1
  refine ⟨fun hc => e1 _ _ (g1 hc), fun hd => e1 _ _ (g2 hd),
    fun s1 hnext hnc hnd => ?_⟩
  have h := e2 _ (g3 s1 hnext hnc hnd)
  rw [h]

/-- Closed instance of `start_next_order_spec`: a below-capacity kitchen
with one pending order queued starts it, advancing it to WAITING. -/
theorem start_next_order_spec_witness :
    (⟨⟨[], [7], 1, 0⟩, [(7, .pendingPayment)]⟩ : KState).start_next_order =
      (⟨⟨[7], [], 1, 1⟩, [(7, .waiting)]⟩, .ok 7) :=
  Eq.trans
    (((start_next_order_spec ⟨⟨[], [7], 1, 0⟩, [(7, .pendingPayment)]⟩).2.2 7 []
      .pendingPayment (by decide) rfl rfl).2.2 .waiting rfl (by decide) (by decide))
    (by decide)

/-- C8 (counterexample): `complete_order` on an in-progress order whose
status has already reached DELIVERED (reachable through duplicate
enqueueing) removes it and decrements the counter but fails with the
terminal-state error instead of advancing the status. -/
theorem complete_order_terminal_counterexample :
    1 ∈ (KRun (KState.init 5 [(1, .pendingPayment)])
        [.addOrder 1, .addOrder 1, .addOrder 1, .addOrder 1, .addOrder 1,
          .startNext, .startNext, .startNext, .startNext,
          .startNext]).cozinha.orders_in_progress ∧
    ((KRun (KState.init 5 [(1, .pendingPayment)])
        [.addOrder 1, .addOrder 1, .addOrder 1, .addOrder 1, .addOrder 1,
          .startNext, .startNext, .startNext, .startNext,
          .startNext]).complete_order 1).2 = .error .terminalDelivered ∧
    lookupStatus ((KRun (KState.init 5 [(1, .pendingPayment)])
        [.addOrder 1, .addOrder 1, .addOrder 1, .addOrder 1, .addOrder 1,
          .startNext, .startNext, .startNext, .startNext,
          .startNext]).complete_order 1).1.orders 1 = some .delivered := by
  decide

/-- C8 (amended): `complete_order` fails with NotFoundError exactly when
the order's identifier is not an in-progress key, leaving the state
unchanged; otherwise it removes the key, decrements the counter and
leaves the queue alone, then advances the order's status by one step —
unless the status is already terminal, in which case it fails with the
terminal-state error with the removal and decrement already applied.
On a duplicate-free in-progress dict, a second consecutive
`complete_order` on the same order therefore always fails with
NotFoundError. -/
theorem complete_order_spec (st : KState) (i : Nat) :
    (i ∉ st.cozinha.orders_in_progress → st.complete_order i = (st, .error .notFound)) ∧
    (i ∈ st.cozinha.orders_in_progress →
      ((st.complete_order i).1.cozinha.orders_in_progress =
          removeFirst st.cozinha.orders_in_progress i ∧
        (st.complete_order i).1.cozinha.number_of_orders_in_progress =
          st.cozinha.number_of_orders_in_progress - 1 ∧
        (st.complete_order i).1.cozinha.orders_in_queue = st.cozinha.orders_in_queue ∧
        (∀ s, lookupStatus st.orders i = some s →
          ((s = .canceled → (st.complete_order i).2 = .error .terminalCanceled ∧
              (st.complete_order i).1.orders = st.orders) ∧
            (s = .delivered → (st.complete_order i).2 = .error .terminalDelivered ∧
              (st.complete_order i).1.orders = st.orders) ∧
            (∀ s1, s.next = some s1 → s ≠ .canceled → s ≠ .delivered →
              (st.complete_order i).2 = .ok () ∧
              (st.complete_order i).1.orders = setStatus st.orders i s1))))) ∧
    (st.cozinha.orders_in_progress.Nodup →
      ((st.complete_order i).1.complete_order i).2 = .error .notFound) := by
  by_cases hm : i ∈ st.cozinha.orders_in_progress
  · have hdef : st.complete_order i =
        (({ st with cozinha := { st.cozinha with
            orders_in_progress := removeFirst st.cozinha.orders_in_progress i
            number_of_orders_in_progress :=
              st.cozinha.number_of_orders_in_progress - 1 } } : KState).goNext i) := by
      simp [KState.complete_order, hm]
    have hs1 : ∀ s, lookupStatus st.orders i = some s →
        lookupStatus ({ st with cozinha := { st.cozinha with
          orders_in_progress := removeFirst st.cozinha.orders_in_progress i
          number_of_orders_in_progress :=
            st.cozinha.number_of_orders_in_progress - 1 } } : KState).orders i = some s :=
      fun _ h => h
    refine ⟨fun hn => absurd hm hn, fun _ => ⟨?_, ?_, ?_, fun s hs => ?_⟩, fun hnd => ?_⟩
    · rw [hdef, goNext_cozinha]
    · rw [hdef, goNext_cozinha]
    · rw [hdef, goNext_cozinha]
    · obtain ⟨g1, g2, g3⟩ := goNext_cases _ i s (hs1 s hs)
      refine ⟨fun hc => ?_, fun hd => ?_, fun s1 hnext hnc hnd => ?_⟩
      · rw [hdef, g1 hc]
        exact ⟨rfl, rfl⟩
      · rw [hdef, g2 hd]
        exact ⟨rfl, rfl⟩
      · rw [hdef, g3 s1 hnext hnc hnd]
        exact ⟨rfl, rfl⟩
    · have hmap : (st.complete_order i).1.cozinha.orders_in_progress =
          removeFirst st.cozinha.orders_in_progress i := by
        rw [hdef, goNext_cozinha]
      have hnotmem : i ∉ (st.complete_order i).1.cozinha.orders_in_progress := by
        rw [hmap]
        exact not_mem_removeFirst _ i hnd
      rw [complete_order_not_mem _ i hnotmem]
  · have hdef := complete_order_not_mem st i hm
    refine ⟨fun _ => hdef, fun hmem => absurd hmem hm, fun _ => ?_⟩
    rw [hdef]
    dsimp only
    rw [hdef]

/-- Closed instance of `complete_order_spec`: completing an in-progress
PREPARING order succeeds and a second completion fails with
NotFoundError. -/
theorem complete_order_spec_witness :
    (((⟨⟨[7], [], 1, 1⟩, [(7, .preparing)]⟩ : KState).complete_order 7).1.complete_order 7).2 =
      .error .notFound :=
  (complete_order_spec ⟨⟨[7], [], 1, 1⟩, [(7, .preparing)]⟩ 7).2.2 (by decide)

/-- C10 (counterexample): with the same `PENDING_PAYMENT` order enqueued
twice and started twice, the in-progress counter reaches 2 while the
in-progress dict holds a single entry (the second insert overwrites the
same key), so the counter does not equal the number of entries. -/
theorem kitchen_counter_map_mismatch :
    (KRun (KState.init 2 [(1, .pendingPayment)])
        [.addOrder 1, .addOrder 1, .startNext,
          .startNext]).cozinha.number_of_orders_in_progress = 2 ∧
    (KRun (KState.init 2 [(1, .pendingPayment)])
        [.addOrder 1, .addOrder 1, .startNext,
          .startNext]).cozinha.orders_in_progress.length = 1 := by
  decide

/-- C10 (amended): starting from a freshly constructed kitchen, after
every sequence of queue/start/complete calls the in-progress counter is
never negative and is at least the number of entries in the in-progress
dict; duplicate queue entries can make it strictly larger. -/
theorem kitchen_counter_bounds_map (cap : Nat) (orders : List (Nat × StatusPedido))
    (ops : List KOp) :
    0 ≤ (KRun (KState.init cap orders) ops).cozinha.number_of_orders_in_progress ∧
    ((KRun (KState.init cap orders) ops).cozinha.orders_in_progress.length : Int) ≤
      (KRun (KState.init cap orders) ops).cozinha.number_of_orders_in_progress := by
  have h := KRun_len (KState.init cap orders) ops (by simp [KState.init, Cozinha.init])
  exact ⟨le_trans (Int.natCast_nonneg _) h, h⟩

/-- C5 (code bug): `Pedido.change_status` is documented (and specified)
to accept any forward status change, raising only on a non-cancelling
backward move; but because `StatusPedido` is a plain `enum.Enum`, the
guard's ordered comparison raises `TypeError` on every call, so even
the documented example — a fresh `ORDERING` order moved forward to
`PENDING_PAYMENT` — fails and leaves the status unchanged. -/
theorem change_status_forward_raises_typeerror :
    Pedido.new.status = .ordering ∧
    Pedido.new.change_status .pendingPayment = (Pedido.new, .error .typeErrorUnorderable) :=
  ⟨rfl, rfl⟩

/-- C6: once an order's status is CANCELED or DELIVERED, no transition
succeeds: `go_to_next_status` fails with the terminal-state error and
changes nothing, every `change_status` call fails and changes nothing
(with the `TypeError` raised by the unorderable-enum guard), and the
status survives any sequence of order-level operations unchanged. -/
theorem terminal_status_frozen (p : Pedido)
    (h : p.status = .canceled ∨ p.status = .delivered) :
    (p.go_to_next_status.1 = p ∧
      (p.go_to_next_status.2 = .error .terminalCanceled ∨
        p.go_to_next_status.2 = .error .terminalDelivered)) ∧
    (∀ s, (p.change_status s).1 = p ∧
      (p.change_status s).2 = .error .typeErrorUnorderable) ∧
    (∀ ops : List POp, (PRun p ops).status = p.status) := by
  refine ⟨?_, fun s => ⟨rfl, rfl⟩, fun ops => PRun_status_of_terminal p ops h⟩
  rcases h with h | h <;> simp [Pedido.go_to_next_status, h]

/-- Closed instance of `terminal_status_frozen` at a concrete canceled
order and a concrete operation sequence. -/
theorem terminal_status_frozen_witness :
    (PRun { items := [], total_price := 0, status := .canceled }
      [.goNext, .changeStatus .ordering, .addItem ⟨1, 5⟩, .goNext]).status = .canceled :=
  (terminal_status_frozen { items := [], total_price := 0, status := .canceled }
    (Or.inl rfl)).2.2 [.goNext, .changeStatus .ordering, .addItem ⟨1, 5⟩, .goNext]

/-- C7: an order whose running total matches its item prices keeps that
property under every sequence of operations; `remove_item` fails with
NotFoundError on an absent item leaving the order unchanged, and on a
present item removes its first occurrence and decreases the total by
its price. -/
theorem order_total_invariant (p : Pedido) (it : Item)
    (hinv : p.total_price = itemsTotal p.items) :
    (∀ ops : List POp, (PRun p ops).get_total = itemsTotal (PRun p ops).items) ∧
    (it ∉ p.items → p.remove_item it = (p, .error .notFound)) ∧
    (it ∈ p.items →
      (p.remove_item it).2 = .ok () ∧
      (p.remove_item it).1.items = removeFirst p.items it ∧
      (p.remove_item it).1.get_total = p.get_total - it.price) := by
  refine ⟨fun ops => PRun_total p ops hinv, fun hm => ?_, fun hm => ?_⟩
  · simp [Pedido.remove_item, hm]
  · simp [Pedido.remove_item, hm, Pedido.get_total]

/-- Closed instance of `order_total_invariant`: removing an item from an
order holding it succeeds and decreases the total by its price. -/
theorem order_total_invariant_witness :
    (({ items := [⟨1, 5⟩], total_price := 5, status := .ordering } : Pedido).remove_item
        ⟨1, 5⟩).1.get_total =
      ({ items := [⟨1, 5⟩], total_price := 5, status := .ordering } : Pedido).get_total -
        (⟨1, 5⟩ : Item).price :=
  ((order_total_invariant { items := [⟨1, 5⟩], total_price := 5, status := .ordering } ⟨1, 5⟩
    (by simp [itemsTotal])).2.2 (by simp)).2.2

end POOTP1
